import Mathlib

/-!
Verification of the structural analyzer in `backend/analyzer.py`.

The development shallowly embeds the analyzer: the fragment of the Python
AST that the analyzer inspects (function and class definitions, bare
expression statements), the parameter extraction of
`ASTAnalyzer._extract_function_info`, docstring detection via
`ast.get_docstring` (including `inspect.cleandoc`), baseline-docstring
synthesis, the token-based comment counting of `count_all_comments` with
its line-scanning fallback, and the report assembly of
`analyze_python_code`.

External collaborators — CPython's parser (`ast.parse`) and lexer
(`tokenize.generate_tokens`) — are modeled as inputs: the analyzer is a
function of a parse outcome (`Except` message or module), a lex outcome
(the token prefix the lexer yielded plus a flag recording whether it then
raised), and the raw source text.  Everything downstream of those inputs
is translated from the source.
-/

/-! ### Python string primitives used by the analyzer -/

/-- Characters Python's `str.strip` / `str.lstrip` remove (ASCII part of
`str.isspace`; exotic unicode whitespace is outside the model). -/
def pyIsSpace (c : Char) : Bool :=
  c = ' ' || c = '\t' || c = '\n' || c = '\r' || c = '\x0b' || c = '\x0c'

/-- Python `s.lstrip()`. -/
def pyLstrip (s : String) : String := ⟨s.data.dropWhile pyIsSpace⟩

/-- Python `s.strip()`. -/
def pyStrip (s : String) : String :=
  ⟨((s.data.dropWhile pyIsSpace).reverse.dropWhile pyIsSpace).reverse⟩

/-- Python `sep.join(parts)`. -/
def pyJoin (sep : String) : List String → String
  | [] => ""
  | [x] => x
  | x :: xs => x ++ sep ++ pyJoin sep xs

/-- Helper for `pySplitNL`: split a character list at newline characters. -/
def splitNLAux : List Char → List Char → List String
  | [], acc => [⟨acc.reverse⟩]
  | c :: rest, acc =>
    if c = '\n' then ⟨acc.reverse⟩ :: splitNLAux rest []
    else splitNLAux rest (c :: acc)

/-- Python `s.split('\n')` (always nonempty; `"".split('\n') = [""]`). -/
def pySplitNL (s : String) : List String := splitNLAux s.data []

/-- Python `s.splitlines()` restricted to `'\n'` line boundaries: a
trailing newline produces no empty final line, and the empty string has
no lines. -/
def pySplitlines (s : String) : List String :=
  if s.data = [] then []
  else if s.data.getLast? = some '\n' then (pySplitNL s).dropLast
  else pySplitNL s

/-- Python `s.isnumeric()` restricted to ASCII digits (the unicode
numeric categories are outside the model). -/
def pyIsNumeric (s : String) : Bool := !s.data.isEmpty && s.data.all Char.isDigit

/-- Helper for `pyExpandTabs`: walk characters tracking the current
column, replacing each tab with spaces up to the next multiple of 8 and
resetting the column on line boundaries, exactly as `str.expandtabs`. -/
def pyExpandTabsAux : List Char → Nat → List Char
  | [], _ => []
  | c :: rest, col =>
    if c = '\t' then
      let pad := 8 - col % 8
      List.replicate pad ' ' ++ pyExpandTabsAux rest (col + pad)
    else if c = '\n' || c = '\r' then c :: pyExpandTabsAux rest 0
    else c :: pyExpandTabsAux rest (col + 1)

/-- Python `s.expandtabs()` (tab size 8). -/
def pyExpandTabs (s : String) : String := ⟨pyExpandTabsAux s.data 0⟩

/-- The minimal indentation of the non-blank lines among `ls`
(`inspect.cleandoc`'s `margin`); `none` plays the role of `sys.maxsize`
when no line has content. -/
def marginOf (ls : List String) : Option Nat :=
  ls.foldl
    (fun acc line =>
      let content := (pyLstrip line).length
      if content ≠ 0 then
        let indent := line.length - content
        match acc with
        | none => some indent
        | some m => some (min m indent)
      else acc)
    none

/-- `inspect.cleandoc`: expand tabs, split into lines, left-strip the
first line, remove the common margin from the remaining lines, and drop
leading and trailing blank lines. -/
def cleandoc (doc : String) : String :=
  let lines := pySplitNL (pyExpandTabs doc)
  let lines :=
    match lines with
    | [] => []
    | first :: rest =>
      let m := marginOf rest
      pyLstrip first ::
        (match m with
         | some mg => rest.map (fun (l : String) => l.drop mg)
         | none => rest)
  let lines := (lines.reverse.dropWhile (· == "")).reverse
  let lines := lines.dropWhile (· == "")
  pyJoin "\n" lines

/-! ### The AST fragment the analyzer inspects -/

/-- Expressions, as far as the analyzer looks at them: names and
attribute chains (typical annotations), string and numeric constants
(docstrings and default values).  `failing` stands for an expression on
which the textual rendering (`ast.unparse`) raises; the parser never
produces one, but the analyzer guards parameter annotations against this
case and the model keeps it expressible. -/
inductive PyExpr where
  | nameId (id : String)
  | attrOf (v : PyExpr) (attr : String)
  | constStr (s : String)
  | constNum (n : Int)
  | failing
deriving DecidableEq

/-- `ast.unparse` on the modeled expressions; `failing` raises. -/
def unparse : PyExpr → Except String String
  | .nameId id => .ok id
  | .attrOf v attr =>
    match unparse v with
    | .ok vs => .ok (vs ++ "." ++ attr)
    | .error e => .error e
  | .constStr s => .ok ("'" ++ s ++ "'")
  | .constNum n => .ok (toString n)
  | .failing => .error "unparse failed"

/-- One `ast.arg` node: the parameter name and its optional
annotation. -/
structure PyArg where
  arg : String
  annot : Option PyExpr
deriving DecidableEq

/-- The `ast.arguments` record as the analyzer reads it: positional
parameters (`args`), keyword-only parameters, the optional `*args` /
`**kwargs` parameters, and the trailing default expressions for the
positional section.  (`posonlyargs` and `kw_defaults` are never read by
the analyzer and are not modeled.) -/
structure PyArguments where
  args : List PyArg
  kwonlyargs : List PyArg
  vararg : Option PyArg
  kwarg : Option PyArg
  defaults : List PyExpr
deriving DecidableEq

mutual
/-- Statements, as far as the analyzer dispatches on them: function
definitions, class definitions, bare expression statements (docstrings),
and `pass`. -/
inductive Stmt where
  | funcDef (name : String) (args : PyArguments) (body : Body)
  | classDef (name : String) (body : Body)
  | exprStmt (e : PyExpr)
  | passStmt

/-- A statement list (a function, class, or module body). -/
inductive Body where
  | nil
  | cons (s : Stmt) (rest : Body)
end

/-- A parsed module: `ast.parse`'s result. -/
structure PyModule where
  body : Body

mutual
/-- Whether `ast.walk` over this statement's subtree meets a
`ClassDef`. -/
def stmtHasClassDef : Stmt → Bool
  | .classDef _ _ => true
  | .funcDef _ _ b => bodyHasClassDef b
  | .exprStmt _ => false
  | .passStmt => false

/-- Whether any statement in the list's subtrees is a `ClassDef`. -/
def bodyHasClassDef : Body → Bool
  | .nil => false
  | .cons s rest => stmtHasClassDef s || bodyHasClassDef rest
end

/-! ### Parameter extraction (`_extract_function_info`, lines 39-91) -/

/-- One entry of `args_info`: the dict
`{'name': ..., 'type': ..., 'default': ...}` with the optional
`'vararg'` / `'kwargs'` keys modeled as flags that default to `false`
(matching `arg.get('vararg', False)` reads). -/
structure ParamInfo where
  name : String
  type : String
  default : Bool
  vararg : Bool
  kwargs : Bool
deriving DecidableEq

/-- The `'type': arg_type or 'Any'` computation for a positional or
keyword-only parameter: render the annotation if present, fall back to
`"Any"` when it is absent, raises, or renders to an empty string. -/
def renderAnnot : Option PyExpr → String
  | none => "Any"
  | some e =>
    match unparse e with
    | .ok s => if s = "" then "Any" else s
    | .error _ => "Any"

/-- The dict appended for a positional parameter (default `False`). -/
def mkPosParam (a : PyArg) : ParamInfo :=
  ⟨a.arg, renderAnnot a.annot, false, false, false⟩

/-- The dict appended for a keyword-only parameter (default `True`
unconditionally). -/
def mkKwOnlyParam (a : PyArg) : ParamInfo :=
  ⟨a.arg, renderAnnot a.annot, true, false, false⟩

/-- Set `'default': True` on the entry at position `j` (list otherwise
unchanged). -/
def markDefault : List ParamInfo → Nat → List ParamInfo
  | [], _ => []
  | p :: ps, 0 => { p with default := true } :: ps
  | p :: ps, j + 1 => p :: markDefault ps j

/-- One iteration of the defaults sweep:
`if i < len(args_info): args_info[i]['default'] = True`, with Python's
negative-index semantics on the assignment.  (An index below
`-len(args_info)` would raise `IndexError` in Python; it is unreachable
for parser-produced definitions, where the number of defaults never
exceeds the number of positional parameters, and is modeled as a
no-op.) -/
def pySetDefaultTrue (l : List ParamInfo) (i : Int) : List ParamInfo :=
  if i < (l.length : Int) then
    if 0 ≤ i then markDefault l i.toNat
    else if 0 ≤ i + (l.length : Int) then markDefault l (i + (l.length : Int)).toNat
    else l
  else l

/-- The loop `for i, default in enumerate(node.args.defaults,
start=len(node.args.args) - len(node.args.defaults))`, iterating `k`
times from index `i`. -/
def applyDefaultsLoop : List ParamInfo → Int → Nat → List ParamInfo
  | l, _, 0 => l
  | l, i, k + 1 => applyDefaultsLoop (pySetDefaultTrue l i) (i + 1) k

/-- `args_info` before the defaults sweep: positional parameters, then
keyword-only parameters, then `*args`, then `**kwargs`, in append
order. -/
def baseArgsInfo (a : PyArguments) : List ParamInfo :=
  a.args.map mkPosParam ++ a.kwonlyargs.map mkKwOnlyParam
    ++ (match a.vararg with
        | some v => [⟨v.arg, "Any", false, true, false⟩]
        | none => [])
    ++ (match a.kwarg with
        | some v => [⟨v.arg, "Any", false, false, true⟩]
        | none => [])

/-- `_extract_function_info`'s `args_info` list: the base list followed
by the trailing-defaults sweep over the positional section. -/
def extractArgsInfo (a : PyArguments) : List ParamInfo :=
  applyDefaultsLoop (baseArgsInfo a)
    ((a.args.length : Int) - (a.defaults.length : Int)) a.defaults.length

/-! ### Baseline docstring synthesis (`_generate_baseline_docstring`) -/

/-- The `Args:` line generated for one parameter. -/
def baselineArgLine (arg : ParamInfo) : String :=
  let n := arg.name
  let t := arg.type
  if arg.vararg then "    *" ++ n ++ " (" ++ t ++ "): Variable positional arguments"
  else if arg.kwargs then "    **" ++ n ++ " (" ++ t ++ "): Variable keyword arguments"
  else "    " ++ n ++ " (" ++ t ++ "): Description of " ++ n

/-- `_generate_baseline_docstring`: the function name, an `Args:`
section when the parameter list is nonempty, and a fixed `Returns:`
section, joined with newlines. -/
def generateBaselineDocstring (funcName : String) (args : List ParamInfo) : String :=
  let lines :=
    [funcName]
      ++ (if args.isEmpty then [] else ["", "Args:"] ++ args.map baselineArgLine)
      ++ ["", "Returns:", "    Any: Description of return value"]
  pyJoin "\n" lines

/-! ### Docstring detection and per-function record -/

/-- `ast.get_docstring(node)`: when the first body statement is a bare
string-literal expression, its content cleaned by `inspect.cleandoc`;
otherwise `None`. -/
def getDocstring : Body → Option String
  | .cons (.exprStmt (.constStr s)) _ => some (cleandoc s)
  | _ => none

/-- The per-function record built by `_extract_function_info`.
(The `return_type` field is not modeled: no claim concerns it, and
`ast.unparse` does not raise on parser-produced trees.) -/
structure FuncInfo where
  name : String
  class_name : Option String
  has_docstring : Bool
  docstring : Option String
  args : List ParamInfo
  baseline_docstring : String
deriving DecidableEq

/-- `_extract_function_info` on a function definition: docstring lookup
and truthiness test (`if docstring:`), parameter extraction, and
baseline synthesis. -/
def extractFunctionInfo (name : String) (a : PyArguments) (body : Body)
    (cls : Option String) : FuncInfo :=
  let ds := getDocstring body
  { name := name
    class_name := cls
    has_docstring := match ds with | some t => decide (t ≠ "") | none => false
    docstring := ds
    args := extractArgsInfo a
    baseline_docstring := generateBaselineDocstring name (extractArgsInfo a) }

/-! ### The visitor (`ASTAnalyzer`) -/

/-- The mutable fields of `ASTAnalyzer`. -/
structure AnalyzerState where
  classes : List String
  functions : List String
  methods : List String
  function_details : List FuncInfo
  method_details : List FuncInfo
  functions_with_docstrings : Nat
  functions_without_docstrings : Nat
  methods_with_docstrings : Nat
  methods_without_docstrings : Nat
deriving DecidableEq

/-- `ASTAnalyzer.__init__`. -/
def initState : AnalyzerState := ⟨[], [], [], [], [], 0, 0, 0, 0⟩

/-- Record a top-level function (the body of `visit_FunctionDef`'s
`if`): append the name and the record, bump one docstring counter. -/
def recordFunction (st : AnalyzerState) (info : FuncInfo) : AnalyzerState :=
  { st with
    functions := st.functions ++ [info.name]
    function_details := st.function_details ++ [info]
    functions_with_docstrings :=
      st.functions_with_docstrings + (if info.has_docstring then 1 else 0)
    functions_without_docstrings :=
      st.functions_without_docstrings + (if info.has_docstring then 0 else 1) }

/-- Record a method of class `cls` (the body of `visit_ClassDef`'s
scan). -/
def recordMethod (cls : String) (st : AnalyzerState) (info : FuncInfo) : AnalyzerState :=
  { st with
    methods := st.methods ++ [cls ++ "." ++ info.name]
    method_details := st.method_details ++ [info]
    methods_with_docstrings :=
      st.methods_with_docstrings + (if info.has_docstring then 1 else 0)
    methods_without_docstrings :=
      st.methods_without_docstrings + (if info.has_docstring then 0 else 1) }

/-- `visit_ClassDef`'s scan over the class body: every direct
`FunctionDef` child is recorded as a method. -/
def visitClassBody (cls : String) (st : AnalyzerState) : Body → AnalyzerState
  | .nil => st
  | .cons (.funcDef n a b) rest =>
    visitClassBody cls (recordMethod cls st (extractFunctionInfo n a b (some cls))) rest
  | .cons _ rest => visitClassBody cls st rest

mutual
/-- `NodeVisitor.visit` dispatch on one statement.  `visit_FunctionDef`
records the function when `ast.walk(node)` meets no `ClassDef` — note
that `ast.walk` enumerates the node's *descendants* — and then
`generic_visit` recurses into the body.  `visit_ClassDef` appends the
class name, scans the direct body for methods, and then `generic_visit`
recurses into the body (re-visiting the methods as `FunctionDef`
nodes). -/
def visitStmt (st : AnalyzerState) : Stmt → AnalyzerState
  | .funcDef n a b =>
    let st1 :=
      if bodyHasClassDef b then st
      else recordFunction st (extractFunctionInfo n a b none)
    visitBody st1 b
  | .classDef n b =>
    let st1 := visitClassBody n { st with classes := st.classes ++ [n] } b
    visitBody st1 b
  | .exprStmt _ => st
  | .passStmt => st

/-- `generic_visit` over a statement list. -/
def visitBody (st : AnalyzerState) : Body → AnalyzerState
  | .nil => st
  | .cons s rest => visitBody (visitStmt st s) rest
end

/-- `ASTAnalyzer().visit(tree)` on a module. -/
def runAnalyzer (m : PyModule) : AnalyzerState := visitBody initState m.body

/-! ### Comment counting (`count_all_comments`) -/

/-- The token kinds the counting loop distinguishes
(`tokenize.COMMENT`, `tokenize.STRING`, everything else). -/
inductive TokKind where
  | comment
  | string
  | other
deriving DecidableEq

/-- One lexer token: its kind and raw text. -/
structure Tok where
  kind : TokKind
  str : String
deriving DecidableEq

/-- The tokenizer's outcome as seen by `count_all_comments`: the tokens
the generator yielded, and whether it then raised (triggering the
fallback on top of the counts already accumulated). -/
structure LexOutcome where
  toks : List Tok
  failed : Bool
deriving DecidableEq

/-- The token loop of `count_all_comments`: comments bump the
single-line counter; a string token whose stripped text is bounded by a
triple-quote delimiter on both ends bumps the multi-line counter by its
line span, and the docstring-line counter by the same span when the
inner content (quotes stripped, then stripped of whitespace) is nonempty
and not purely numeric. -/
def tokenLoop (s m d : Nat) : List Tok → Nat × Nat × Nat
  | [] => (s, m, d)
  | t :: rest =>
    if t.kind = TokKind.comment then tokenLoop (s + 1) m d rest
    else if t.kind = TokKind.string then
      let ts := pyStrip t.str
      if (ts.startsWith "\"\"\"" && ts.endsWith "\"\"\"")
          || (ts.startsWith "'''" && ts.endsWith "'''") then
        let n := (pySplitNL t.str).length
        let content := pyStrip ((ts.drop 3).dropRight 3)
        if content != "" && !pyIsNumeric content then tokenLoop s (m + n) (d + n) rest
        else tokenLoop s (m + n) d rest
      else tokenLoop s m d rest
    else tokenLoop s m d rest

/-- The `except:` fallback: line-oriented scan counting lines whose
stripped form starts with `#` (single-line) or with a triple-quote
delimiter (multi-line). -/
def lineScan (src : String) : Nat × Nat :=
  (pySplitlines src).foldl
    (fun sm line =>
      let stripped := pyStrip line
      if stripped.startsWith "#" then (sm.1 + 1, sm.2)
      else if stripped.startsWith "\"\"\"" || stripped.startsWith "'''" then
        (sm.1, sm.2 + 1)
      else sm)
    (0, 0)

/-- The dictionary `count_all_comments` returns. -/
structure CommentCounts where
  single_line_comments : Nat
  multi_line_comments : Nat
  docstring_lines : Nat
  total_comments : Nat
deriving DecidableEq

/-- `count_all_comments`: run the token loop over the tokens the lexer
yielded; when the lexer raised, the line-scan fallback adds to the
counters already accumulated.  `total_comments` is always the sum of the
single-line and multi-line counters. -/
def count_all_comments (toks : List Tok) (lexFailed : Bool) (src : String) :
    CommentCounts :=
  let smd := tokenLoop 0 0 0 toks
  let s := smd.1
  let m := smd.2.1
  let d := smd.2.2
  let sm : Nat × Nat :=
    if lexFailed then (s + (lineScan src).1, m + (lineScan src).2) else (s, m)
  { single_line_comments := sm.1
    multi_line_comments := sm.2
    docstring_lines := d
    total_comments := sm.1 + sm.2 }

/-! ### Report assembly (`analyze_python_code`) -/

/-- The `counts` sub-dictionary of the report. -/
structure Counts where
  total_modules : Nat
  total_classes : Nat
  total_functions : Nat
  total_methods : Nat
  total_comments : Nat
  single_line_comments : Nat
  multi_line_comments : Nat
  docstring_lines : Nat
  functions_with_docstrings : Nat
  functions_without_docstrings : Nat
  methods_with_docstrings : Nat
  methods_without_docstrings : Nat
  total_with_docstrings : Nat
  total_without_docstrings : Nat
  docstring_coverage : ℚ
deriving DecidableEq

/-- The report dictionary. -/
structure Report where
  modules : Nat
  classes : List String
  functions : List String
  methods : List String
  function_details : List FuncInfo
  method_details : List FuncInfo
  counts : Counts
deriving DecidableEq

/-- The report built for a successfully parsed module (the body of
`analyze_python_code` after `ast.parse`): run the visitor, count
comments, and aggregate.  Division is modeled over `ℚ`. -/
def buildReport (m : PyModule) (lex : LexOutcome) (source : String) : Report :=
  let st := runAnalyzer m
  let cc := count_all_comments lex.toks lex.failed source
  let total_fm := st.function_details.length + st.method_details.length
  let tw := st.functions_with_docstrings + st.methods_with_docstrings
  let two := st.functions_without_docstrings + st.methods_without_docstrings
  { modules := 1
    classes := st.classes
    functions := st.functions
    methods := st.methods
    function_details := st.function_details
    method_details := st.method_details
    counts :=
      { total_modules := 1
        total_classes := st.classes.length
        total_functions := st.functions.length
        total_methods := st.methods.length
        total_comments := cc.total_comments
        single_line_comments := cc.single_line_comments
        multi_line_comments := cc.multi_line_comments
        docstring_lines := cc.docstring_lines
        functions_with_docstrings := st.functions_with_docstrings
        functions_without_docstrings := st.functions_without_docstrings
        methods_with_docstrings := st.methods_with_docstrings
        methods_without_docstrings := st.methods_without_docstrings
        total_with_docstrings := tw
        total_without_docstrings := two
        docstring_coverage :=
          if 0 < total_fm then (tw : ℚ) / (total_fm : ℚ) * 100 else 0 } }

/-- `analyze_python_code`: `ast.parse` either raises a `SyntaxError`
(propagated to the caller with no report) or yields a module from which
the report is built. -/
def analyze_python_code (parseResult : Except String PyModule)
    (lex : LexOutcome) (source : String) : Except String Report :=
  match parseResult with
  | .error e => .error e
  | .ok m => .ok (buildReport m lex source)

/-! ### Specification-side definitions

The following definitions are written from the specification's words, not
from the source; refinement theorems below compare them with the
source-derived definitions. -/

/-- Spec 4.2: a token text "bounded by three double- or three
single-quote marks identically on both ends of the trimmed token
text". -/
def specIsTriple (s : String) : Bool :=
  (s.startsWith "\"\"\"" && s.endsWith "\"\"\"") || (s.startsWith "'''" && s.endsWith "'''")

/-- Spec 4.2: "the inner content (quotes stripped)". -/
def specInnerContent (s : String) : String := pyStrip ((s.drop 3).dropRight 3)

/-- Spec 4.2: inner content "non-empty and not purely numeric". -/
def specDocLike (s : String) : Bool :=
  let c := specInnerContent s
  c != "" && !pyIsNumeric c

/-- Spec 4.2: "the number of lines the token spans". -/
def specLineSpan (s : String) : Nat := (pySplitNL s).length

/-- A string-literal token that is triple-quoted after trimming. -/
def specTripleTok (t : Tok) : Bool :=
  decide (t.kind = TokKind.string) && specIsTriple (pyStrip t.str)

/-- The single-line-counter contribution of one token: each comment
token counts one. -/
def specSingleOf (t : Tok) : Nat := if t.kind = TokKind.comment then 1 else 0

/-- The multi-line-counter contribution of one token: a triple-quoted
string literal counts its line span. -/
def specMultiOf (t : Tok) : Nat := if specTripleTok t then specLineSpan t.str else 0

/-- The documentation-like contribution of one token: a triple-quoted
string literal with documentation-like content counts its line span. -/
def specDocOf (t : Tok) : Nat :=
  if specTripleTok t && specDocLike (pyStrip t.str) then specLineSpan t.str else 0

/-- Spec 4.5: one `Args:` line, `name (type): Description of name` for a
plain parameter, `*name (type): Variable positional arguments` /
`**name (type): Variable keyword arguments` for the variadic ones. -/
def specArgLine (p : ParamInfo) : String :=
  let n := p.name
  let t := p.type
  if p.vararg then "    *" ++ n ++ " (" ++ t ++ "): Variable positional arguments"
  else if p.kwargs then "    **" ++ n ++ " (" ++ t ++ "): Variable keyword arguments"
  else "    " ++ n ++ " (" ++ t ++ "): Description of " ++ n

/-- Spec 4.5: the baseline block — callable name, blank line, an
`Args:` section listing one line per parameter in descriptor order,
blank line, and a fixed `Returns:` section; with an empty parameter list
the `Args:` section (and its preceding blank line) is omitted while
`Returns:` stays. -/
def specBaselineDoc (name : String) (ps : List ParamInfo) : String :=
  pyJoin "\n\n"
    ([name]
      ++ (if ps.isEmpty then []
          else [pyJoin "\n" ("Args:" :: ps.map specArgLine)])
      ++ [pyJoin "\n" ["Returns:", "    Any: Description of return value"]])

/-- The bookkeeping invariant of the analyzer: each recorded definition
bumps exactly one of the with/without docstring counters, so the record
lists and the counters stay in lockstep. -/
def countersConsistent (st : AnalyzerState) : Prop :=
  st.function_details.length
      = st.functions_with_docstrings + st.functions_without_docstrings ∧
    st.method_details.length
      = st.methods_with_docstrings + st.methods_without_docstrings

/-! ### Concrete fixtures used by witnesses and counterexamples -/

/-- `def f():` — no parameters. -/
def emptyArgs : PyArguments := ⟨[], [], none, none, []⟩

/-- `def m(self):`. -/
def selfArgs : PyArguments := ⟨[⟨"self", none⟩], [], none, none, []⟩

/-- The parameter sections of `def f(a, b=1, *args, **kw):`. -/
def scenarioAArgs : PyArguments :=
  ⟨[⟨"a", none⟩, ⟨"b", none⟩], [], some ⟨"args", none⟩, some ⟨"kw", none⟩,
    [PyExpr.constNum 1]⟩

/-- A small token stream: one comment, one two-line triple-quoted
literal, one ordinary string literal. -/
def demoToks : List Tok :=
  [⟨TokKind.comment, "# c"⟩, ⟨TokKind.string, "\"\"\"ab\ncd\"\"\""⟩,
   ⟨TokKind.string, "'x'"⟩]

/-- The module `def f():\n    pass` — one undocumented top-level
function. -/
def modUndocF : PyModule :=
  ⟨Body.cons (Stmt.funcDef "f" emptyArgs (Body.cons Stmt.passStmt Body.nil))
    Body.nil⟩

/-! ### Helper lemmas: the token loop -/

/-- The token loop adds, to each accumulator, the sum of the per-token
contributions described in spec 4.2. -/
theorem tokenLoop_eq (toks : List Tok) : ∀ s m d,
    tokenLoop s m d toks =
      (s + (toks.map specSingleOf).sum, m + (toks.map specMultiOf).sum,
        d + (toks.map specDocOf).sum) := by
  induction toks with
  | nil => intro s m d; simp [tokenLoop]
  | cons t rest ih =>
    intro s m d
    obtain ⟨k, str⟩ := t
    rw [tokenLoop]
    cases k <;>
      split_ifs with h1 h2 <;>
        (try simp_all [specSingleOf, specMultiOf, specDocOf, specTripleTok,
          specIsTriple, specDocLike, specInnerContent, specLineSpan,
          Prod.ext_iff]) <;>
        (try split_ifs) <;>
        (try simp_all) <;>
        try omega

/-- Each token's documentation-like contribution is bounded by its
multi-line contribution. -/
theorem specDocOf_le_specMultiOf (t : Tok) : specDocOf t ≤ specMultiOf t := by
  unfold specDocOf specMultiOf
  by_cases h : (specTripleTok t && specDocLike (pyStrip t.str)) = true
  · rw [if_pos h, if_pos (by exact (Bool.and_eq_true _ _ ▸ h).1)]
  · rw [if_neg h]; exact Nat.zero_le _

/-! ### C6: comment statistics -/

/-- C6.  In the comment statistics, every COMMENT token adds exactly one
to the single-line counter; every STRING token whose trimmed text is
bounded by the same triple-quote delimiter on both ends adds its line
span to the multi-line counter, and additionally the same span to the
documentation-like counter iff its inner content is non-empty and not
purely numeric; and the reported total always equals single-line plus
multi-line. -/
theorem comment_stats_per_token (toks : List Tok) (lexFailed : Bool) (src : String) :
    (count_all_comments toks lexFailed src).total_comments
        = (count_all_comments toks lexFailed src).single_line_comments
          + (count_all_comments toks lexFailed src).multi_line_comments ∧
      (lexFailed = false →
        (count_all_comments toks lexFailed src).single_line_comments
            = (toks.map specSingleOf).sum ∧
          (count_all_comments toks lexFailed src).multi_line_comments
            = (toks.map specMultiOf).sum ∧
          (count_all_comments toks lexFailed src).docstring_lines
            = (toks.map specDocOf).sum) := by
  constructor
  · simp [count_all_comments]
  · intro hf
    subst hf
    simp [count_all_comments, tokenLoop_eq]

/-- Witness for C6 at a concrete token stream. -/
theorem comment_stats_per_token_witness :
    (count_all_comments demoToks false "").total_comments
        = (count_all_comments demoToks false "").single_line_comments
          + (count_all_comments demoToks false "").multi_line_comments ∧
      (count_all_comments demoToks false "").docstring_lines
        = (demoToks.map specDocOf).sum := by
  have h := comment_stats_per_token demoToks false ""
  exact ⟨h.1, (h.2 rfl).2.2⟩

/-! ### C10: documentation-like count never exceeds multi-line count -/

/-- C10.  For every token stream, lexer outcome and source text, the
documentation-like line count never exceeds the multi-line literal
count: each documentation-like increment comes with an equal multi-line
increment, and the line-scan fallback only adds to the single-line and
multi-line counters. -/
theorem doc_lines_le_multi_lines (toks : List Tok) (lexFailed : Bool) (src : String) :
    (count_all_comments toks lexFailed src).docstring_lines
      ≤ (count_all_comments toks lexFailed src).multi_line_comments := by
  have hsum : (toks.map specDocOf).sum ≤ (toks.map specMultiOf).sum := by
    induction toks with
    | nil => simp
    | cons t rest ih =>
      simp only [List.map_cons, List.sum_cons]
      exact Nat.add_le_add (specDocOf_le_specMultiOf t) ih
  cases lexFailed <;>
    simp only [count_all_comments, tokenLoop_eq] <;>
    simp <;>
    omega

/-! ### C9: determinism -/

/-- C9.  The analysis is deterministic: identical parse outcome, lexer
outcome and source text yield identical reports. -/
theorem analyze_deterministic (p₁ p₂ : Except String PyModule)
    (l₁ l₂ : LexOutcome) (s₁ s₂ : String)
    (hp : p₁ = p₂) (hl : l₁ = l₂) (hs : s₁ = s₂) :
    analyze_python_code p₁ l₁ s₁ = analyze_python_code p₂ l₂ s₂ := by
  subst hp; subst hl; subst hs; rfl

/-- Witness for C9 at a concrete input. -/
theorem analyze_deterministic_witness :
    analyze_python_code (Except.ok ⟨Body.nil⟩) ⟨[], false⟩ ""
      = analyze_python_code (Except.ok ⟨Body.nil⟩) ⟨[], false⟩ "" :=
  analyze_deterministic _ _ _ _ _ _ rfl rfl rfl

/-! ### C1: classification of function definitions

`visit_FunctionDef` tests `any(isinstance(parent, ast.ClassDef) for
parent in ast.walk(node))`, but `ast.walk(node)` enumerates the node's
descendants, not its ancestors.  Consequently a method (visited again by
`generic_visit` from `visit_ClassDef`) and a function nested inside
another function are both also recorded as top-level functions. -/

/-- C1 (code behaviour at the failing inputs).  For
`class C:\n    def m(self):\n        pass` the method `m` is recorded
both as method `C.m` and as top-level function `m`; for
`def f():\n    def g():\n        pass` the nested function `g` is
recorded as a top-level function. -/
theorem method_and_nested_double_counted :
    (buildReport ⟨Body.cons
        (Stmt.classDef "C" (Body.cons
          (Stmt.funcDef "m" selfArgs (Body.cons Stmt.passStmt Body.nil))
          Body.nil)) Body.nil⟩ ⟨[], false⟩ "").methods = ["C.m"] ∧
      (buildReport ⟨Body.cons
        (Stmt.classDef "C" (Body.cons
          (Stmt.funcDef "m" selfArgs (Body.cons Stmt.passStmt Body.nil))
          Body.nil)) Body.nil⟩ ⟨[], false⟩ "").functions = ["m"] ∧
      (buildReport ⟨Body.cons
        (Stmt.funcDef "f" emptyArgs (Body.cons
          (Stmt.funcDef "g" emptyArgs (Body.cons Stmt.passStmt Body.nil))
          Body.nil)) Body.nil⟩ ⟨[], false⟩ "").functions = ["f", "g"] := by
  refine ⟨?_, ?_, ?_⟩ <;> decide

/-! ### C4: docstring detection -/

/-- C4 (counterexample to the claim as stated).  A function whose first
statement is the bare string literal `""` has `has_docstring = False`,
and a docstring with a trailing space on a line is reported with that
space kept, not trimmed per line. -/
theorem empty_docstring_not_detected :
    (extractFunctionInfo "f" emptyArgs
        (Body.cons (Stmt.exprStmt (PyExpr.constStr "")) Body.nil) none).has_docstring
        = false ∧
      (extractFunctionInfo "g" emptyArgs
        (Body.cons (Stmt.exprStmt (PyExpr.constStr "a \nb")) Body.nil) none).docstring
        = some "a \nb" ∧
      ("a \nb" : String) ≠ "a\nb" := by
  refine ⟨?_, ?_, ?_⟩ <;> decide

/-- C4 (amended).  `has_docstring` is true iff the body's first
statement is a bare string-literal expression whose `cleandoc`-cleaned
content is non-empty; whenever the first statement is a bare string
literal, the reported documentation text is the `cleandoc`-cleaned
content (tabs expanded, first line left-stripped, common indentation of
later lines removed, leading and trailing blank lines dropped). -/
theorem has_documentation_iff (name : String) (a : PyArguments) (body : Body)
    (cls : Option String) :
    ((extractFunctionInfo name a body cls).has_docstring = true ↔
        ∃ s rest, body = Body.cons (Stmt.exprStmt (PyExpr.constStr s)) rest
          ∧ cleandoc s ≠ "") ∧
      (∀ s rest, body = Body.cons (Stmt.exprStmt (PyExpr.constStr s)) rest →
        (extractFunctionInfo name a body cls).docstring = some (cleandoc s)) := by
  constructor
  · cases body with
    | nil => simp [extractFunctionInfo, getDocstring]
    | cons s rest =>
      cases s with
      | funcDef n ar b => simp [extractFunctionInfo, getDocstring]
      | classDef n b => simp [extractFunctionInfo, getDocstring]
      | passStmt => simp [extractFunctionInfo, getDocstring]
      | exprStmt e =>
        cases e with
        | constStr str =>
          simp only [extractFunctionInfo, getDocstring, decide_eq_true_eq]
          constructor
          · intro h; exact ⟨str, rest, rfl, h⟩
          · rintro ⟨s', rest', heq, hne⟩
            injection heq with h1 h2
            injection h1 with h3
            injection h3 with h4
            subst h4; exact hne
        | nameId i => simp [extractFunctionInfo, getDocstring]
        | attrOf v at_ => simp [extractFunctionInfo, getDocstring]
        | constNum n => simp [extractFunctionInfo, getDocstring]
        | failing => simp [extractFunctionInfo, getDocstring]
  · rintro s rest rfl
    simp [extractFunctionInfo, getDocstring]

/-- Witness for C4's amended statement at a concrete function. -/
theorem has_documentation_iff_witness :
    (extractFunctionInfo "f" emptyArgs
        (Body.cons (Stmt.exprStmt (PyExpr.constStr "desc")) Body.nil) none).has_docstring
        = true ∧
      (extractFunctionInfo "f" emptyArgs
        (Body.cons (Stmt.exprStmt (PyExpr.constStr "desc")) Body.nil) none).docstring
        = some (cleandoc "desc") :=
  ⟨(has_documentation_iff "f" emptyArgs _ none).1.mpr
      ⟨"desc", Body.nil, rfl, by decide⟩,
    (has_documentation_iff "f" emptyArgs _ none).2 "desc" Body.nil rfl⟩

/-! ### Helper lemmas: the defaults sweep -/

/-- `markDefault` sets the default flag at one position and leaves every
other position unchanged. -/
theorem markDefault_getElem? (l : List ParamInfo) : ∀ (j i : Nat),
    (markDefault l j)[i]? =
      if i = j then (l[i]?).map (fun p => { p with default := true })
      else l[i]? := by
  induction l with
  | nil => intro j i; simp [markDefault]
  | cons p ps ih =>
    intro j i
    cases j with
    | zero =>
      cases i with
      | zero => simp [markDefault]
      | succ n => simp [markDefault]
    | succ j' =>
      cases i with
      | zero => simp [markDefault]
      | succ n => simp [markDefault, ih j' n]

/-- One sweep iteration at a non-negative index `i` sets position `i`
(when it exists) and leaves everything else unchanged. -/
theorem pySetDefaultTrue_getElem? (l : List ParamInfo) (i : Int) (hi : 0 ≤ i)
    (j : Nat) :
    (pySetDefaultTrue l i)[j]? =
      if (j : Int) = i then (l[j]?).map (fun p => { p with default := true })
      else l[j]? := by
  unfold pySetDefaultTrue
  by_cases h1 : i < (l.length : Int)
  · rw [if_pos h1, if_pos hi, markDefault_getElem?]
    have hiff : (j = i.toNat) ↔ ((j : Int) = i) := by omega
    by_cases hc : (j : Int) = i
    · rw [if_pos (hiff.mpr hc), if_pos hc]
    · rw [if_neg (fun h => hc (hiff.mp h)), if_neg hc]
  · rw [if_neg h1]
    by_cases hc : (j : Int) = i
    · rw [if_pos hc]
      have hlen : l.length ≤ j := by omega
      rw [List.getElem?_eq_none hlen]
      rfl
    · rw [if_neg hc]

/-- The defaults sweep starting at a non-negative index `i` sets the
default flag on exactly the positions in `[i, i + k)` (when they
exist). -/
theorem applyDefaultsLoop_getElem? : ∀ (k : Nat) (l : List ParamInfo) (i : Int),
    0 ≤ i → ∀ (j : Nat),
    (applyDefaultsLoop l i k)[j]? =
      if i ≤ (j : Int) ∧ (j : Int) < i + (k : Int) then
        (l[j]?).map (fun p => { p with default := true })
      else l[j]? := by
  intro k
  induction k with
  | zero =>
    intro l i hi j
    simp only [applyDefaultsLoop]
    split_ifs with hc
    · exfalso; push_cast at hc; omega
    · rfl
  | succ k' ih =>
    intro l i hi j
    simp only [applyDefaultsLoop]
    rw [ih (pySetDefaultTrue l i) (i + 1) (by omega) j]
    rw [pySetDefaultTrue_getElem? l i hi j]
    split_ifs <;> first
      | rfl
      | (exfalso; push_cast at *; omega)

/-- `markDefault` preserves any projection that ignores the default
flag. -/
theorem markDefault_map {α : Type} (f : ParamInfo → α)
    (hf : ∀ p, f { p with default := true } = f p) :
    ∀ (l : List ParamInfo) (j : Nat), (markDefault l j).map f = l.map f := by
  intro l
  induction l with
  | nil => intro j; simp [markDefault]
  | cons p ps ih =>
    intro j
    cases j with
    | zero => simp [markDefault, hf]
    | succ j' => simp [markDefault, ih j']

/-- One sweep iteration preserves any projection that ignores the
default flag. -/
theorem pySetDefaultTrue_map {α : Type} (f : ParamInfo → α)
    (hf : ∀ p, f { p with default := true } = f p) (l : List ParamInfo) (i : Int) :
    (pySetDefaultTrue l i).map f = l.map f := by
  unfold pySetDefaultTrue
  split_ifs <;> simp [markDefault_map f hf]

/-- The defaults sweep preserves any projection that ignores the default
flag. -/
theorem applyDefaultsLoop_map {α : Type} (f : ParamInfo → α)
    (hf : ∀ p, f { p with default := true } = f p) :
    ∀ (k : Nat) (l : List ParamInfo) (i : Int),
      (applyDefaultsLoop l i k).map f = l.map f := by
  intro k
  induction k with
  | zero => intro l i; simp [applyDefaultsLoop]
  | succ k' ih =>
    intro l i
    simp only [applyDefaultsLoop]
    rw [ih, pySetDefaultTrue_map f hf]

/-- The extracted list and the base list agree on any projection that
ignores the default flag. -/
theorem extractArgsInfo_map {α : Type} (f : ParamInfo → α)
    (hf : ∀ p, f { p with default := true } = f p) (a : PyArguments) :
    (extractArgsInfo a).map f = (baseArgsInfo a).map f := by
  unfold extractArgsInfo
  rw [applyDefaultsLoop_map f hf]

/-- The defaults sweep does not change the list length. -/
theorem extractArgsInfo_length (a : PyArguments) :
    (extractArgsInfo a).length = (baseArgsInfo a).length := by
  have h := extractArgsInfo_map (fun p => p.name) (fun p => rfl) a
  have h1 := congrArg List.length h
  simpa using h1

/-- Every base-list entry carrying a variadic flag has the default flag
false (and keyword-only entries carry no variadic flag). -/
theorem baseArgsInfo_flag_default (a : PyArguments) :
    ∀ p ∈ baseArgsInfo a, (p.vararg = true ∨ p.kwargs = true) →
      p.default = false := by
  intro p hp hflag
  simp only [baseArgsInfo, List.mem_append] at hp
  rcases hp with ((hA | hB) | hC) | hD
  · obtain ⟨x, hx, rfl⟩ := List.mem_map.1 hA
    rfl
  · obtain ⟨x, hx, rfl⟩ := List.mem_map.1 hB
    simp [mkKwOnlyParam] at hflag
  · cases hva : a.vararg with
    | none => rw [hva] at hC; simp at hC
    | some v =>
      rw [hva] at hC
      rw [List.mem_singleton] at hC
      subst hC
      rfl
  · cases hkw : a.kwarg with
    | none => rw [hkw] at hD; simp at hD
    | some v =>
      rw [hkw] at hD
      rw [List.mem_singleton] at hD
      subst hD
      rfl

/-- Position `j` of the base list, for `j` inside the positional
section. -/
theorem baseArgsInfo_getElem?_pos (a : PyArguments) (j : Nat)
    (hj : j < a.args.length) :
    (baseArgsInfo a)[j]? = some (mkPosParam (a.args.get ⟨j, hj⟩)) := by
  unfold baseArgsInfo
  rw [List.getElem?_append, if_pos (by simp; omega)]
  rw [List.getElem?_append, if_pos (by simp; omega)]
  rw [List.getElem?_append, if_pos (by simpa using hj)]
  rw [List.getElem?_map, List.getElem?_eq_getElem hj]
  simp

/-- Position `j` of the base list, for `j` inside the keyword-only
section: the default flag there is unconditionally true. -/
theorem baseArgsInfo_getElem?_kw (a : PyArguments) (j : Nat)
    (hj1 : a.args.length ≤ j) (hj2 : j < a.args.length + a.kwonlyargs.length) :
    ((baseArgsInfo a)[j]?).map (fun p => p.default) = some true := by
  unfold baseArgsInfo
  rw [List.getElem?_append, if_pos (by simp; omega)]
  rw [List.getElem?_append, if_pos (by simp; omega)]
  rw [List.getElem?_append, if_neg (by simp; omega)]
  rw [List.getElem?_map]
  have hlt : j - (a.args.map mkPosParam).length < a.kwonlyargs.length := by
    simp; omega
  rw [List.getElem?_eq_getElem hlt]
  simp [mkKwOnlyParam]

/-! ### C2: default attribution -/

/-- C2.  For a parser-valid parameter record (number of defaults bounded
by the number of positional parameters), the extracted descriptors have
the default flag true for exactly the last K positional parameters
(K = number of default expressions) and for every keyword-only
parameter, while the variadic entries keep it false. -/
theorem default_flags (a : PyArguments)
    (h : a.defaults.length ≤ a.args.length) :
    (∀ j, j < a.args.length →
        ((extractArgsInfo a)[j]?).map (fun p => p.default)
          = some (decide (a.args.length - a.defaults.length ≤ j))) ∧
      (∀ j, a.args.length ≤ j → j < a.args.length + a.kwonlyargs.length →
        ((extractArgsInfo a)[j]?).map (fun p => p.default) = some true) ∧
      (∀ p ∈ extractArgsInfo a, p.vararg = true ∨ p.kwargs = true →
        p.default = false) := by
  have hi0 : (0 : Int) ≤ (a.args.length : Int) - (a.defaults.length : Int) := by
    omega
  refine ⟨?_, ?_, ?_⟩
  · intro j hj
    unfold extractArgsInfo
    rw [applyDefaultsLoop_getElem? _ _ _ hi0 j]
    rw [baseArgsInfo_getElem?_pos a j hj]
    by_cases hc : a.args.length - a.defaults.length ≤ j
    · rw [if_pos (by omega)]
      simp [mkPosParam, hc]
    · rw [if_neg (by omega)]
      simp [mkPosParam, hc]
  · intro j hj1 hj2
    unfold extractArgsInfo
    rw [applyDefaultsLoop_getElem? _ _ _ hi0 j]
    rw [if_neg (by omega)]
    exact baseArgsInfo_getElem?_kw a j hj1 hj2
  · intro p hp hflag
    obtain ⟨j, hj⟩ := List.mem_iff_getElem?.1 hp
    unfold extractArgsInfo at hj
    rw [applyDefaultsLoop_getElem? _ _ _ hi0 j] at hj
    by_cases hc : ((a.args.length : Int) - (a.defaults.length : Int) ≤ (j : Int)
        ∧ (j : Int) < (a.args.length : Int) - (a.defaults.length : Int)
          + (a.defaults.length : Int))
    · rw [if_pos hc] at hj
      have hjlt : j < a.args.length := by omega
      rw [baseArgsInfo_getElem?_pos a j hjlt] at hj
      simp only [Option.map_some', Option.some.injEq] at hj
      subst hj
      simp [mkPosParam] at hflag
    · rw [if_neg hc] at hj
      exact baseArgsInfo_flag_default a p (List.mem_iff_getElem?.2 ⟨j, hj⟩) hflag

/-- Witness for C2 at the parameters of `def f(a, b=1, *args, **kw):`
— `a` keeps default false, `b` gets default true. -/
theorem default_flags_witness :
    ((extractArgsInfo scenarioAArgs)[0]?).map (fun p => p.default) = some false ∧
      ((extractArgsInfo scenarioAArgs)[1]?).map (fun p => p.default) = some true := by
  have h := default_flags scenarioAArgs (by decide)
  constructor
  · have h0 := h.1 0 (by decide)
    simpa using h0
  · have h1 := h.1 1 (by decide)
    simpa using h1

/-! ### C3: descriptor-list shape -/

/-- C3.  The descriptor list has length positional + keyword-only +
(1 if `*args`) + (1 if `**kwargs`); its order is the positional names,
then the keyword-only names, then `*args`, then `**kwargs`; at most one
descriptor carries the variadic-positional flag, at most one the
variadic-keyword flag, and no descriptor carries both. -/
theorem param_list_shape (a : PyArguments) :
    (extractArgsInfo a).length
        = a.args.length + a.kwonlyargs.length
          + (match a.vararg with | some _ => 1 | none => 0)
          + (match a.kwarg with | some _ => 1 | none => 0) ∧
      (extractArgsInfo a).map (fun p => p.name)
        = a.args.map (fun x => x.arg) ++ a.kwonlyargs.map (fun x => x.arg)
          ++ (match a.vararg with | some v => [v.arg] | none => [])
          ++ (match a.kwarg with | some v => [v.arg] | none => []) ∧
      (extractArgsInfo a).countP (fun p => p.vararg) ≤ 1 ∧
      (extractArgsInfo a).countP (fun p => p.kwargs) ≤ 1 ∧
      ∀ p ∈ extractArgsInfo a, ¬(p.vararg = true ∧ p.kwargs = true) := by
  have hname := extractArgsInfo_map (fun p => p.name) (fun p => rfl) a
  have hva := extractArgsInfo_map (fun p => p.vararg) (fun p => rfl) a
  have hkw := extractArgsInfo_map (fun p => p.kwargs) (fun p => rfl) a
  refine ⟨?_, ?_, ?_, ?_, ?_⟩
  · rw [extractArgsInfo_length]
    rcases a with ⟨args, kw, va, kwa, defs⟩
    cases va <;> cases kwa <;> simp [baseArgsInfo] <;> omega
  · rw [hname]
    rcases a with ⟨args, kw, va, kwa, defs⟩
    cases va <;> cases kwa <;>
      simp [baseArgsInfo, mkPosParam, mkKwOnlyParam, Function.comp_def]
  · have heq : (extractArgsInfo a).countP (fun p => p.vararg)
        = (baseArgsInfo a).countP (fun p => p.vararg) := by
      have h1 := congrArg (fun l => List.countP (fun b : Bool => b) l) hva
      simpa [List.countP_map, Function.comp] using h1
    rw [heq]
    rcases a with ⟨args, kw, va, kwa, defs⟩
    have hpos : List.countP ((fun p : ParamInfo => p.vararg) ∘ mkPosParam) args = 0 :=
      List.countP_eq_zero.mpr (fun x _ => by simp [Function.comp_def, mkPosParam])
    have hkws : List.countP ((fun p : ParamInfo => p.vararg) ∘ mkKwOnlyParam) kw = 0 :=
      List.countP_eq_zero.mpr (fun x _ => by simp [Function.comp_def, mkKwOnlyParam])
    cases va <;> cases kwa <;>
      simp [baseArgsInfo, List.countP_append, List.countP_map, hpos, hkws,
        List.countP_cons]
  · have heq : (extractArgsInfo a).countP (fun p => p.kwargs)
        = (baseArgsInfo a).countP (fun p => p.kwargs) := by
      have h1 := congrArg (fun l => List.countP (fun b : Bool => b) l) hkw
      simpa [List.countP_map, Function.comp] using h1
    rw [heq]
    rcases a with ⟨args, kw, va, kwa, defs⟩
    have hpos : List.countP ((fun p : ParamInfo => p.kwargs) ∘ mkPosParam) args = 0 :=
      List.countP_eq_zero.mpr (fun x _ => by simp [Function.comp_def, mkPosParam])
    have hkws : List.countP ((fun p : ParamInfo => p.kwargs) ∘ mkKwOnlyParam) kw = 0 :=
      List.countP_eq_zero.mpr (fun x _ => by simp [Function.comp_def, mkKwOnlyParam])
    cases va <;> cases kwa <;>
      simp [baseArgsInfo, List.countP_append, List.countP_map, hpos, hkws,
        List.countP_cons]
  · intro p hp
    have hmem : (fun q => (q.vararg, q.kwargs)) p
        ∈ (extractArgsInfo a).map (fun q => (q.vararg, q.kwargs)) :=
      List.mem_map_of_mem _ hp
    rw [extractArgsInfo_map (fun q => (q.vararg, q.kwargs)) (fun q => rfl)] at hmem
    simp only [baseArgsInfo, List.map_append, List.mem_append] at hmem
    rintro ⟨hv, hk⟩
    rcases hmem with ((hA | hB) | hC) | hD
    · obtain ⟨x, hx, hPx⟩ := List.mem_map.1 hA
      obtain ⟨y, hy, rfl⟩ := List.mem_map.1 hx
      rw [hv] at hPx
      simp [mkPosParam] at hPx
    · obtain ⟨x, hx, hPx⟩ := List.mem_map.1 hB
      obtain ⟨y, hy, rfl⟩ := List.mem_map.1 hx
      rw [hv] at hPx
      simp [mkKwOnlyParam] at hPx
    · cases hvo : a.vararg with
      | none => rw [hvo] at hC; simp at hC
      | some v =>
        rw [hvo] at hC
        simp at hC
        simp [hC.2] at hk
    · cases hko : a.kwarg with
      | none => rw [hko] at hD; simp at hD
      | some v =>
        rw [hko] at hD
        simp at hD
        simp [hD.1] at hv

/-! ### Helper lemmas: joining lines -/

/-- Unfolding `pyJoin` on a list with at least two elements. -/
theorem pyJoin_cons_cons (sep x y : String) (xs : List String) :
    pyJoin sep (x :: y :: xs) = x ++ sep ++ pyJoin sep (y :: xs) := rfl

/-- `pyJoin` distributes over the concatenation of two nonempty
lists. -/
theorem pyJoin_append (sep : String) : ∀ (xs ys : List String), xs ≠ [] → ys ≠ [] →
    pyJoin sep (xs ++ ys) = pyJoin sep xs ++ sep ++ pyJoin sep ys := by
  intro xs
  induction xs with
  | nil => intro ys h _; exact absurd rfl h
  | cons x xs' ih =>
    intro ys hx hy
    cases xs' with
    | nil =>
      cases ys with
      | nil => exact absurd rfl hy
      | cons y ys' => rfl
    | cons x2 xs'' =>
      have h2 := ih ys (by simp) hy
      calc pyJoin sep ((x :: x2 :: xs'') ++ ys)
          = x ++ sep ++ pyJoin sep ((x2 :: xs'') ++ ys) := rfl
        _ = x ++ sep ++ (pyJoin sep (x2 :: xs'') ++ sep ++ pyJoin sep ys) := by
            rw [h2]
        _ = (x ++ sep ++ pyJoin sep (x2 :: xs'')) ++ sep ++ pyJoin sep ys := by
            simp [String.append_assoc]
        _ = pyJoin sep (x :: x2 :: xs'') ++ sep ++ pyJoin sep ys := rfl

/-- Two adjacent newlines merge into the blank-line separator. -/
theorem nl_nl (x : String) : "\n" ++ ("\n" ++ x) = "\n\n" ++ x := by
  have h : ("\n" : String) ++ "\n" = "\n\n" := by decide
  rw [← String.append_assoc, h]

/-- The generated baseline docstring equals the section-structured text
described in spec 4.5, for every name and parameter list. -/
theorem generateBaseline_eq_spec (n : String) : ∀ (ps : List ParamInfo),
    generateBaselineDocstring n ps = specBaselineDoc n ps := by
  intro ps
  cases ps with
  | nil =>
    unfold generateBaselineDocstring specBaselineDoc
    simp [pyJoin, String.append_assoc, String.empty_append, nl_nl]
  | cons p ps' =>
    unfold generateBaselineDocstring specBaselineDoc
    have hfun : specArgLine = baselineArgLine := rfl
    rw [hfun]
    simp only [List.isEmpty_cons, Bool.false_eq_true, if_false, ite_false,
      List.cons_append, List.nil_append, List.map_cons]
    rw [pyJoin_cons_cons, pyJoin_cons_cons, pyJoin_cons_cons]
    rw [show (baselineArgLine p :: (List.map baselineArgLine ps'
          ++ ["", "Returns:", "    Any: Description of return value"]))
        = (baselineArgLine p :: List.map baselineArgLine ps')
          ++ ["", "Returns:", "    Any: Description of return value"] from rfl]
    rw [pyJoin_append _ _ _ (by simp) (by simp)]
    simp [pyJoin, String.append_assoc, String.empty_append, nl_nl]

/-! ### C5: baseline docstring synthesis -/

/-- C5.  For every function definition the baseline docstring is always
computed and equals the structure from spec 4.5: the callable name, a
blank line, an `Args:` section with one line per descriptor in order
(plain, `*`, and `**` forms), a blank line, and the fixed `Returns:`
section; with no parameters the `Args:` section and its preceding blank
line are omitted while `Returns:` remains. -/
theorem baseline_structure (name : String) (a : PyArguments) (body : Body)
    (cls : Option String) :
    (extractFunctionInfo name a body cls).baseline_docstring
      = specBaselineDoc name (extractArgsInfo a) := by
  show generateBaselineDocstring name (extractArgsInfo a) = _
  exact generateBaseline_eq_spec name (extractArgsInfo a)

/-! ### Helper lemmas: the bookkeeping invariant -/

/-- The initial analyzer state satisfies the bookkeeping invariant. -/
theorem countersConsistent_init : countersConsistent initState := by
  constructor <;> rfl

/-- Recording a top-level function preserves the invariant. -/
theorem countersConsistent_recordFunction (st : AnalyzerState) (info : FuncInfo)
    (h : countersConsistent st) : countersConsistent (recordFunction st info) := by
  obtain ⟨h1, h2⟩ := h
  unfold countersConsistent recordFunction
  cases info.has_docstring <;> simp [List.length_append] <;> omega

/-- Recording a method preserves the invariant. -/
theorem countersConsistent_recordMethod (cls : String) (st : AnalyzerState)
    (info : FuncInfo) (h : countersConsistent st) :
    countersConsistent (recordMethod cls st info) := by
  obtain ⟨h1, h2⟩ := h
  unfold countersConsistent recordMethod
  cases info.has_docstring <;> simp [List.length_append] <;> omega

/-- The class-body method scan preserves the invariant. -/
theorem countersConsistent_visitClassBody (cls : String) :
    ∀ (b : Body) (st : AnalyzerState),
      countersConsistent st → countersConsistent (visitClassBody cls st b)
  | .nil, _, h => h
  | .cons (.funcDef _ _ _) rest, st, h =>
    countersConsistent_visitClassBody cls rest _
      (countersConsistent_recordMethod cls st _ h)
  | .cons (.classDef _ _) rest, st, h =>
    countersConsistent_visitClassBody cls rest st h
  | .cons (.exprStmt _) rest, st, h =>
    countersConsistent_visitClassBody cls rest st h
  | .cons .passStmt rest, st, h =>
    countersConsistent_visitClassBody cls rest st h

mutual
/-- Visiting one statement preserves the invariant. -/
theorem countersConsistent_visitStmt : ∀ (s : Stmt) (st : AnalyzerState),
    countersConsistent st → countersConsistent (visitStmt st s)
  | .funcDef n a b, st, h => by
    show countersConsistent (visitBody
      (if bodyHasClassDef b then st
       else recordFunction st (extractFunctionInfo n a b none)) b)
    apply countersConsistent_visitBody
    by_cases hc : bodyHasClassDef b
    · simpa [hc] using h
    · simpa [hc] using countersConsistent_recordFunction st _ h
  | .classDef n b, st, h => by
    show countersConsistent (visitBody
      (visitClassBody n { st with classes := st.classes ++ [n] } b) b)
    apply countersConsistent_visitBody
    apply countersConsistent_visitClassBody
    obtain ⟨h1, h2⟩ := h
    exact ⟨h1, h2⟩
  | .exprStmt _, st, h => h
  | .passStmt, st, h => h

/-- Visiting a statement list preserves the invariant. -/
theorem countersConsistent_visitBody : ∀ (b : Body) (st : AnalyzerState),
    countersConsistent st → countersConsistent (visitBody st b)
  | .nil, _, h => h
  | .cons s rest, st, h =>
    countersConsistent_visitBody rest _ (countersConsistent_visitStmt s st h)
end

/-! ### C7: docstring coverage -/

/-- C7 (counterexample to the claim as stated).  For the module
`def f(): pass` the coverage is 0 although with + without = 1 ≠ 0, so
"coverage equals 0 exactly when with + without = 0" fails. -/
theorem coverage_zero_with_undocumented_callable :
    (buildReport modUndocF ⟨[], false⟩ "").counts.docstring_coverage = 0 ∧
      (buildReport modUndocF ⟨[], false⟩ "").counts.total_with_docstrings
        + (buildReport modUndocF ⟨[], false⟩ "").counts.total_without_docstrings
        ≠ 0 := by
  have h1 : (runAnalyzer modUndocF).functions_with_docstrings = 0 := by decide
  have h2 : (runAnalyzer modUndocF).methods_with_docstrings = 0 := by decide
  have h3 : (runAnalyzer modUndocF).functions_without_docstrings = 1 := by decide
  have h4 : (runAnalyzer modUndocF).methods_without_docstrings = 0 := by decide
  have h5 : (runAnalyzer modUndocF).function_details.length = 1 := by decide
  have h6 : (runAnalyzer modUndocF).method_details.length = 0 := by decide
  constructor
  · simp only [buildReport, h1, h2, h3, h4, h5, h6]
    norm_num
  · simp only [buildReport, h1, h2, h3, h4, h5, h6]
    norm_num

/-- C7 (amended).  The reported coverage always lies in `[0, 100]`; it
equals with /(with + without) × 100 whenever with + without > 0 and 0
when with + without = 0; and it equals 0 exactly when the number of
callables with docstrings is 0 (in particular when there are no
callables at all). -/
theorem coverage_bounds (m : PyModule) (lex : LexOutcome) (src : String) :
    0 ≤ (buildReport m lex src).counts.docstring_coverage ∧
      (buildReport m lex src).counts.docstring_coverage ≤ 100 ∧
      ((buildReport m lex src).counts.docstring_coverage = 0 ↔
        (buildReport m lex src).counts.total_with_docstrings = 0) ∧
      (0 < (buildReport m lex src).counts.total_with_docstrings
          + (buildReport m lex src).counts.total_without_docstrings →
        (buildReport m lex src).counts.docstring_coverage
          = ((buildReport m lex src).counts.total_with_docstrings : ℚ)
            / (((buildReport m lex src).counts.total_with_docstrings : ℚ)
              + ((buildReport m lex src).counts.total_without_docstrings : ℚ))
            * 100) ∧
      ((buildReport m lex src).counts.total_with_docstrings
          + (buildReport m lex src).counts.total_without_docstrings = 0 →
        (buildReport m lex src).counts.docstring_coverage = 0) := by
  have hinv : countersConsistent (runAnalyzer m) :=
    countersConsistent_visitBody m.body initState countersConsistent_init
  obtain ⟨h1, h2⟩ := hinv
  simp only [buildReport]
  set st := runAnalyzer m with hst
  set tw := st.functions_with_docstrings + st.methods_with_docstrings with htw
  set two := st.functions_without_docstrings + st.methods_without_docstrings
    with htwo
  set d := st.function_details.length + st.method_details.length with hd
  have hdenom : d = tw + two := by omega
  by_cases hpos : 0 < d
  · rw [if_pos hpos]
    have hdc : (0 : ℚ) < (d : ℚ) := by exact_mod_cast hpos
    have htwd : tw ≤ d := by omega
    have hle1 : (tw : ℚ) / (d : ℚ) ≤ 1 :=
      (div_le_one hdc).mpr (by exact_mod_cast htwd)
    refine ⟨by positivity, ?_, ?_, ?_, ?_⟩
    · calc (tw : ℚ) / (d : ℚ) * 100 ≤ 1 * 100 := by nlinarith
        _ = 100 := by norm_num
    · rw [mul_eq_zero, div_eq_zero_iff]
      constructor
      · rintro ((hz | hz) | hz)
        · exact_mod_cast hz
        · exact absurd hz (by positivity)
        · exact absurd hz (by norm_num)
      · intro hz
        left; left
        exact_mod_cast hz
    · intro _
      have : (d : ℚ) = (tw : ℚ) + (two : ℚ) := by
        rw [hdenom]; push_cast; ring
      rw [this]
    · intro hzero
      omega
  · rw [if_neg hpos]
    have hd0 : d = 0 := by omega
    have htw0 : tw = 0 := by omega
    refine ⟨le_refl 0, by norm_num, ?_, ?_, fun _ => rfl⟩
    · constructor
      · intro _; exact htw0
      · intro _; rfl
    · intro hc
      omega

/-- Witness for C7's amended statement: the empty module has coverage
0. -/
theorem coverage_bounds_witness :
    (buildReport ⟨Body.nil⟩ ⟨[], false⟩ "").counts.docstring_coverage = 0 :=
  (coverage_bounds ⟨Body.nil⟩ ⟨[], false⟩ "").2.2.2.2 (by decide)

/-! ### C8: error handling -/

/-- C8.  The analysis fails exactly when parsing failed (the parser's
message is propagated and no report is produced); every parsed module
yields a report; an annotation whose rendering raises degrades to the
`"Any"` sentinel; a tokenizer failure degrades to the line-scanning
fallback without raising; and the empty module with empty source yields
a report whose statistics are all zero. -/
theorem error_handling :
    (∀ (msg : String) (lex : LexOutcome) (src : String),
        analyze_python_code (Except.error msg) lex src = Except.error msg) ∧
      (∀ (m : PyModule) (lex : LexOutcome) (src : String),
        analyze_python_code (Except.ok m) lex src
          = Except.ok (buildReport m lex src)) ∧
      (∀ (e : PyExpr) (msg : String), unparse e = Except.error msg →
        renderAnnot (some e) = "Any") ∧
      (∀ (src : String),
        count_all_comments [] true src
          = { single_line_comments := (lineScan src).1
              multi_line_comments := (lineScan src).2
              docstring_lines := 0
              total_comments := (lineScan src).1 + (lineScan src).2 }) ∧
      ((buildReport ⟨Body.nil⟩ ⟨[], false⟩ "").counts.total_classes = 0 ∧
        (buildReport ⟨Body.nil⟩ ⟨[], false⟩ "").counts.total_functions = 0 ∧
        (buildReport ⟨Body.nil⟩ ⟨[], false⟩ "").counts.total_methods = 0 ∧
        (buildReport ⟨Body.nil⟩ ⟨[], false⟩ "").counts.total_comments = 0 ∧
        (buildReport ⟨Body.nil⟩ ⟨[], false⟩ "").counts.single_line_comments = 0 ∧
        (buildReport ⟨Body.nil⟩ ⟨[], false⟩ "").counts.multi_line_comments = 0 ∧
        (buildReport ⟨Body.nil⟩ ⟨[], false⟩ "").counts.docstring_lines = 0 ∧
        (buildReport ⟨Body.nil⟩ ⟨[], false⟩ "").counts.total_with_docstrings = 0 ∧
        (buildReport ⟨Body.nil⟩ ⟨[], false⟩ "").counts.total_without_docstrings
          = 0 ∧
        (buildReport ⟨Body.nil⟩ ⟨[], false⟩ "").counts.docstring_coverage = 0) := by
  refine ⟨?_, ?_, ?_, ?_, ?_⟩
  · intro msg lex src; rfl
  · intro m lex src; rfl
  · intro e msg h
    simp [renderAnnot, h]
  · intro src
    simp [count_all_comments, tokenLoop]
  · have hA : (runAnalyzer (⟨Body.nil⟩ : PyModule)).function_details.length = 0 :=
      by decide
    have hB : (runAnalyzer (⟨Body.nil⟩ : PyModule)).method_details.length = 0 :=
      by decide
    have hC : (runAnalyzer (⟨Body.nil⟩ : PyModule)).functions_with_docstrings = 0 :=
      by decide
    have hD : (runAnalyzer (⟨Body.nil⟩ : PyModule)).methods_with_docstrings = 0 :=
      by decide
    refine ⟨by decide, by decide, by decide, by decide, by decide, by decide,
      by decide, by decide, by decide, ?_⟩
    simp only [buildReport, hA, hB, hC, hD]
    norm_num

/-- Witness for C8 at a concrete parse failure and a concrete failing
annotation. -/
theorem error_handling_witness :
    analyze_python_code (Except.error "invalid syntax") ⟨[], false⟩ ""
        = Except.error "invalid syntax" ∧
      renderAnnot (some PyExpr.failing) = "Any" :=
  ⟨error_handling.1 "invalid syntax" ⟨[], false⟩ "",
    error_handling.2.2.1 PyExpr.failing "unparse failed" rfl⟩

/-- Witness for C3 at the parameters of `def f(a, b=1, *args, **kw):`
— four descriptors, and the `*args` entry does not carry both variadic
flags. -/
theorem param_list_shape_witness :
    (extractArgsInfo scenarioAArgs).length = 4 ∧
      ¬((⟨"args", "Any", false, true, false⟩ : ParamInfo).vararg = true
        ∧ (⟨"args", "Any", false, true, false⟩ : ParamInfo).kwargs = true) := by
  constructor
  · have h := (param_list_shape scenarioAArgs).1
    simpa using h
  · exact (param_list_shape scenarioAArgs).2.2.2.2 _ (by decide)
